import Mathlib

/-!
# ngx_array: a growable array on top of a bump (pool) allocator

A shallow embedding of `src/ngx_array.h` and `src/ngx_array.c`.

Modelling conventions.

* Addresses, element counts and byte sizes are natural numbers.  The
  arithmetic on `ngx_uint_t` and `size_t` that involves a count chosen by the
  caller (the `n` of `ngx_array_push_n`, `ngx_array_init` and
  `ngx_array_create`) is computed modulo `2 ^ 64`, as on a 64-bit platform:
  see `wrap64`.  Products of the fields of one array (`size * nalloc`,
  `size * nelts`) measure the block of that array; they, the arithmetic of
  `ngx_array_push`, which is bounded by twice the size of that block, and
  the additions on pointers are computed in the natural numbers.
* A pointer-returning C function returns `Option Nat`; `none` is `NULL`.
* `ngx_palloc`, the pool allocator, is not part of the repository.  It is a
  parameter of every operation: an arbitrary function from the pool state
  and the requested size to a result and a new pool state.  The pool state
  carries the two fields the array code reads and writes (`p->d.last`,
  `p->d.end`) and an arbitrary remainder `rest` that only the allocator
  looks at.  The allocator hands out memory but does not write to it.
* Memory is a flat map from addresses to bytes.
* `sizeof(ngx_array_t)` depends on the platform; it is a parameter of
  `ngx_array_create` and `ngx_array_destroy`, which also take the address
  of the header where the C code compares or returns it.
-/

namespace NgxArray

/-! ## The data model and the functions of the source -/

/-- One byte. -/
abbrev u_char := Fin 256

/-- Byte-addressed memory. -/
abbrev Memory := Nat → u_char

/-- The pool as the array code sees it: `d_last` is `p->d.last` (the bump
cursor), `d_end` is `p->d.end` (the end of the active block), `rest` is the
part of the allocator state the array code never touches. -/
structure ngx_pool_t (σ : Type) where
  d_last : Nat
  d_end : Nat
  rest : σ

/-- The array header of `ngx_array.h`: `elts` is the address of the element
block, `nelts` the number of used elements, `size` the size of one element,
`nalloc` the number of allocated elements, `pool` the address of the pool. -/
structure ngx_array_t where
  elts : Nat
  nelts : Nat
  size : Nat
  nalloc : Nat
  pool : Nat
  deriving DecidableEq, Repr

/-- The type of the external allocator `ngx_palloc(pool, size)`: it returns
the address of the block (`none` for `NULL`) and the pool state it leaves. -/
abbrev Palloc (σ : Type) := ngx_pool_t σ → Nat → Option Nat × ngx_pool_t σ

/-- The program state an array operation works on: the array header `a`,
the pool `p` that `a->pool` points to, and memory. -/
structure State (σ : Type) where
  a : ngx_array_t
  p : ngx_pool_t σ
  mem : Memory

/-- The null pointer as stored in a pointer field. -/
def NULL : Nat := 0

/-- Return type of `ngx_array_init`. -/
abbrev ngx_int_t := Int

/-- Success code of nginx (declared outside the repository). -/
def NGX_OK : ngx_int_t := 0

/-- Failure code of nginx (declared outside the repository). -/
def NGX_ERROR : ngx_int_t := -1

/-- The value a computation on `ngx_uint_t` or `size_t` leaves: arithmetic on
the 64-bit machine word wraps around. -/
def wrap64 (x : Nat) : Nat := x % 2 ^ 64

/-- The copy `ngx_memcpy(dst, src, n)`: afterwards the `n` bytes at `dst`
hold what the `n` bytes at `src` held before, every other byte is as before
(the contract of `memcpy` on the blocks an allocator hands out). -/
def ngx_memcpy (mem : Memory) (dst src n : Nat) : Memory :=
  fun x => if dst ≤ x ∧ x < dst + n then mem (src + (x - dst)) else mem x

/-- The inline function `ngx_array_init(array, pool, n, size)` of
`ngx_array.h`; `pool` is the address of the pool `s.p`. -/
def ngx_array_init {σ : Type} (ngx_palloc : Palloc σ) (s : State σ)
    (pool n size : Nat) : ngx_int_t × State σ :=
  let array : ngx_array_t :=
    { s.a with nelts := 0, size := size, nalloc := n, pool := pool }
  match ngx_palloc s.p (wrap64 (n * size)) with
  | (none, p1) =>
      (NGX_ERROR, { s with a := { array with elts := NULL }, p := p1 })
  | (some q, p1) =>
      (NGX_OK, { s with a := { array with elts := q }, p := p1 })

/-- The function `ngx_array_push(a)` of `ngx_array.c`. -/
def ngx_array_push {σ : Type} (ngx_palloc : Palloc σ) (s : State σ) :
    Option Nat × State σ :=
  let a := s.a
  let p := s.p
  if a.nelts = a.nalloc then
    -- the array is full
    let size := a.size * a.nalloc
    if a.elts + size = p.d_last ∧ p.d_last + a.size ≤ p.d_end then
      -- the array allocation is the last in the pool
      -- and there is space for new allocation
      let p1 := { p with d_last := p.d_last + a.size }
      let a1 := { a with nalloc := a.nalloc + 1 }
      (some (a1.elts + a1.size * a1.nelts),
        { s with a := { a1 with nelts := a1.nelts + 1 }, p := p1 })
    else
      -- allocate a new array
      match ngx_palloc p (2 * size) with
      | (none, p1) => (none, { s with p := p1 })
      | (some new, p1) =>
          let mem1 := ngx_memcpy s.mem new a.elts size
          let a1 := { a with elts := new, nalloc := a.nalloc * 2 }
          (some (a1.elts + a1.size * a1.nelts),
            { a := { a1 with nelts := a1.nelts + 1 }, p := p1, mem := mem1 })
  else
    (some (a.elts + a.size * a.nelts),
      { s with a := { a with nelts := a.nelts + 1 } })

/-- The function `ngx_array_push_n(a, n)` of `ngx_array.c`.  Every sum and
product in which the caller's `n` takes part is a machine word. -/
def ngx_array_push_n {σ : Type} (ngx_palloc : Palloc σ) (s : State σ)
    (n : Nat) : Option Nat × State σ :=
  let a := s.a
  let p := s.p
  let size := wrap64 (n * a.size)
  if wrap64 (a.nelts + n) > a.nalloc then
    -- the array is full
    if a.elts + a.size * a.nalloc = p.d_last ∧ p.d_last + size ≤ p.d_end then
      -- the array allocation is the last in the pool
      -- and there is space for new allocation
      let p1 := { p with d_last := p.d_last + size }
      let a1 := { a with nalloc := wrap64 (a.nalloc + n) }
      (some (a1.elts + a1.size * a1.nelts),
        { s with a := { a1 with nelts := wrap64 (a1.nelts + n) }, p := p1 })
    else
      -- allocate a new array
      let nalloc := wrap64 (2 * (if n ≥ a.nalloc then n else a.nalloc))
      match ngx_palloc p (wrap64 (nalloc * a.size)) with
      | (none, p1) => (none, { s with p := p1 })
      | (some new, p1) =>
          let mem1 := ngx_memcpy s.mem new a.elts (a.nelts * a.size)
          let a1 := { a with elts := new, nalloc := nalloc }
          (some (a1.elts + a1.size * a1.nelts),
            { a := { a1 with nelts := wrap64 (a1.nelts + n) }, p := p1,
              mem := mem1 })
  else
    (some (a.elts + a.size * a.nelts),
      { s with a := { a with nelts := wrap64 (a.nelts + n) } })

/-- The function `ngx_array_create(p, n, size)` of `ngx_array.c`.  The
parameter `sizeof_ngx_array_t` is `sizeof(ngx_array_t)`, `pool` is the
address of the pool `s.p`; the result is the address of the header, whose
fields are the `a` of the state returned. -/
def ngx_array_create {σ : Type} (sizeof_ngx_array_t : Nat)
    (ngx_palloc : Palloc σ) (s : State σ) (pool n size : Nat) :
    Option Nat × State σ :=
  match ngx_palloc s.p sizeof_ngx_array_t with
  | (none, p1) => (none, { s with p := p1 })
  | (some a, p1) =>
      let r := ngx_array_init ngx_palloc { s with p := p1 } pool n size
      if r.1 ≠ NGX_OK then (none, r.2) else (some a, r.2)

/-- The function `ngx_array_destroy(a)` of `ngx_array.c`.  The parameter
`sizeof_ngx_array_t` is `sizeof(ngx_array_t)`, `a` is the address of the
header, whose fields are `s.a`. -/
def ngx_array_destroy {σ : Type} (sizeof_ngx_array_t : Nat) (a : Nat)
    (s : State σ) : State σ :=
  let p := s.p
  let p1 :=
    if s.a.elts + s.a.size * s.a.nalloc = p.d_last then
      { p with d_last := p.d_last - s.a.size * s.a.nalloc }
    else p
  let p2 :=
    if a + sizeof_ngx_array_t = p1.d_last then
      { p1 with d_last := a }
    else p1
  { s with p := p2 }

/-! ## The conditions of growth in place -/

/-- The pair of conditions under which `ngx_array_push` extends a full
array in place (lines 68-69 of `ngx_array.c`). -/
def push_in_place {σ : Type} (s : State σ) : Prop :=
  s.a.elts + s.a.size * s.a.nalloc = s.p.d_last ∧
    s.p.d_last + s.a.size ≤ s.p.d_end

/-- The pair of conditions under which `ngx_array_push_n` extends the
array in place (lines 116-117 of `ngx_array.c`); the size `n * a->size` is
the machine word computed on line 108. -/
def push_n_in_place {σ : Type} (s : State σ) (n : Nat) : Prop :=
  s.a.elts + s.a.size * s.a.nalloc = s.p.d_last ∧
    s.p.d_last + wrap64 (n * s.a.size) ≤ s.p.d_end

instance {σ : Type} (s : State σ) : Decidable (push_in_place s) :=
  inferInstanceAs (Decidable (_ ∧ _))

instance {σ : Type} (s : State σ) (n : Nat) :
    Decidable (push_n_in_place s n) :=
  inferInstanceAs (Decidable (_ ∧ _))

/-! ## The caller: values stored into slots, pushes in a row -/

/-- The caller stores an element: the `size` bytes at `slot` become the
bytes `v 0`, `v 1`, ... of the value. -/
def write_elt (mem : Memory) (slot size : Nat) (v : Nat → u_char) : Memory :=
  fun x => if slot ≤ x ∧ x < slot + size then v (x - slot) else mem x

/-- One append as a caller does it: `ngx_array_push`, then, when it did not
return `NULL`, the value is written into the returned slot. -/
def push_value {σ : Type} (ngx_palloc : Palloc σ) (s : State σ)
    (v : Nat → u_char) : Option (State σ) :=
  match ngx_array_push ngx_palloc s with
  | (none, _) => none
  | (some slot, s1) =>
      some { s1 with mem := write_elt s1.mem slot s1.a.size v }

/-- The values of a list appended one after the other; `none` as soon as a
push fails. -/
def push_values {σ : Type} (ngx_palloc : Palloc σ) :
    State σ → List (Nat → u_char) → Option (State σ)
  | s, [] => some s
  | s, v :: vs =>
      match push_value ngx_palloc s v with
      | none => none
      | some s1 => push_values ngx_palloc s1 vs

/-- The array of `s` holds the values `vals`: the count is their number and
element `i` of the current block is the `i`-th value, byte for byte. -/
def Holds {σ : Type} (s : State σ) (vals : List (Nat → u_char)) : Prop :=
  s.a.nelts = vals.length ∧
  ∀ i v, vals[i]? = some v → ∀ j, j < s.a.size →
    s.mem (s.a.elts + i * s.a.size + j) = v j

/-- The function `ngx_array_push` called `k` times in a row; `none` as soon
as one call returns `NULL`. -/
def pushes {σ : Type} (ngx_palloc : Palloc σ) : Nat → State σ → Option (State σ)
  | 0, s => some s
  | k + 1, s =>
      match ngx_array_push ngx_palloc s with
      | (none, _) => none
      | (some _, s1) => pushes ngx_palloc k s1

/-! ## Sample allocators and sample states, used to run the code -/

/-- A one-block bump allocator that logs every requested size in `rest`:
it serves a request from the cursor when the block has room and fails
otherwise. -/
def bump_palloc : Palloc (List Nat) := fun p size =>
  if p.d_last + size ≤ p.d_end then
    (some p.d_last,
      { p with d_last := p.d_last + size, rest := p.rest ++ [size] })
  else
    (none, { p with rest := p.rest ++ [size] })

/-- An allocator whose every request fails. -/
def fail_palloc : Palloc (List Nat) := fun p size =>
  (none, { p with rest := p.rest ++ [size] })

/-- An allocator in the manner of a pool that chains blocks: a request the
active block cannot serve is served from a second region, whose cursor is
`rest`, and leaves `d_last` alone. -/
def chain_palloc : Palloc Nat := fun p size =>
  if p.d_last + size ≤ p.d_end then
    (some p.d_last, { p with d_last := p.d_last + size })
  else
    (some p.rest, { p with rest := p.rest + size })

/-- Memory filled with zero bytes. -/
def zero_mem : Memory := fun _ => 0

/-- A state from its numbers: the array fields, then the pool cursor and
end; the request log is empty and memory is zeroed. -/
def mkState (elts nelts size nalloc last endp : Nat) : State (List Nat) :=
  { a := { elts := elts, nelts := nelts, size := size, nalloc := nalloc,
           pool := 1 },
    p := { d_last := last, d_end := endp, rest := [] },
    mem := zero_mem }

/-- The pool of the failing run: cursor 100, end 300, nothing logged. -/
def pool_100_300 : State (List Nat) := mkState 0 0 0 0 100 300

/-- The failing run of C4: `ngx_array_init` with capacity 0 and element
size 4, then one unrelated allocation of 16 bytes from the same pool, then
`ngx_array_push`. -/
def zero_capacity_run : Option Nat × State (List Nat) :=
  let s0 := (ngx_array_init bump_palloc pool_100_300 1 0 4).2
  let s1 := { s0 with p := (bump_palloc s0.p 16).2 }
  ngx_array_push bump_palloc s1

/-- The pool of the failing run of C5: cursor 100, end 102, so fewer bytes
are left than one element of size 4 needs. -/
def pool_100_102 : State (List Nat) := mkState 0 0 0 0 100 102

/-- A pool with ten bytes left in its active block (cursor 100, end 110)
and a second region at 1000. -/
def chain_state : State Nat :=
  { a := { elts := 0, nelts := 0, size := 0, nalloc := 0, pool := 0 },
    p := { d_last := 100, d_end := 110, rest := 1000 },
    mem := zero_mem }

/-- Three element values: every byte of the first is 11, of the second 22,
of the third 33. -/
def three_values : List (Nat → u_char) := [fun _ => 11, fun _ => 22, fun _ => 33]

/-- A full array of two 4-byte elements at 100 that ends at the cursor 108
of a pool ending at 200. -/
def full_last_state : State (List Nat) := mkState 100 2 4 2 108 200

/-- The array of the run against C13: `ngx_array_create` with a header of
40 bytes, capacity 2 and element size 4, in a pool whose active block has
the cursor 100 and the end 150 and whose second region starts at 1000. -/
def created_run : Option Nat × State Nat :=
  ngx_array_create 40 chain_palloc
    { a := { elts := 0, nelts := 0, size := 0, nalloc := 0, pool := 0 },
      p := { d_last := 100, d_end := 150, rest := 1000 },
      mem := zero_mem } 1 2 4

/-- The run against C13, continued: after `created_run`, one more
allocation of 8 bytes from the same pool. -/
def later_alloc_run : State Nat :=
  { created_run.2 with p := (chain_palloc created_run.2.p 8).2 }

/-! ## The paths through the two append operations -/

/-- The doubling base of `ngx_array_push_n` (line 130) is the maximum of
the batch size and the capacity. -/
theorem ite_ge_eq_max (n c : Nat) : (if n ≥ c then n else c) = max n c := by
  by_cases h : n ≥ c
  · simp only [h, if_true]; exact (Nat.max_eq_left h).symm
  · simp only [h, if_false]; exact (Nat.max_eq_right (Nat.le_of_not_le h)).symm

/-- Push with room left: only the count moves. -/
theorem push_room {σ : Type} (ngx_palloc : Palloc σ) (s : State σ)
    (h : s.a.nelts ≠ s.a.nalloc) :
    ngx_array_push ngx_palloc s =
      (some (s.a.elts + s.a.size * s.a.nelts),
        { s with a := { s.a with nelts := s.a.nelts + 1 } }) := by
  unfold ngx_array_push
  simp only [h, if_false]

/-- Push of a full array that may grow in place. -/
theorem push_grow {σ : Type} (ngx_palloc : Palloc σ) (s : State σ)
    (h1 : s.a.nelts = s.a.nalloc) (h2 : push_in_place s) :
    ngx_array_push ngx_palloc s =
      (some (s.a.elts + s.a.size * s.a.nelts),
        { s with
          a := { s.a with nalloc := s.a.nalloc + 1, nelts := s.a.nelts + 1 },
          p := { s.p with d_last := s.p.d_last + s.a.size } }) := by
  unfold push_in_place at h2
  unfold ngx_array_push
  simp only [h1, h2, and_self, if_true]

/-- Push of a full array that must move, when the allocator fails. -/
theorem push_move_none {σ : Type} (ngx_palloc : Palloc σ) (s : State σ)
    (p1 : ngx_pool_t σ)
    (h1 : s.a.nelts = s.a.nalloc) (h2 : ¬ push_in_place s)
    (h3 : ngx_palloc s.p (2 * (s.a.size * s.a.nalloc)) = (none, p1)) :
    ngx_array_push ngx_palloc s = (none, { s with p := p1 }) := by
  unfold push_in_place at h2
  unfold ngx_array_push
  simp only [h1, h2, h3, if_true, if_false]

/-- Push of a full array that must move, when the allocator succeeds. -/
theorem push_move_some {σ : Type} (ngx_palloc : Palloc σ) (s : State σ)
    (new : Nat) (p1 : ngx_pool_t σ)
    (h1 : s.a.nelts = s.a.nalloc) (h2 : ¬ push_in_place s)
    (h3 : ngx_palloc s.p (2 * (s.a.size * s.a.nalloc)) = (some new, p1)) :
    ngx_array_push ngx_palloc s =
      (some (new + s.a.size * s.a.nelts),
        { a := { s.a with elts := new, nalloc := s.a.nalloc * 2,
                          nelts := s.a.nelts + 1 },
          p := p1,
          mem := ngx_memcpy s.mem new s.a.elts (s.a.size * s.a.nalloc) }) := by
  unfold push_in_place at h2
  unfold ngx_array_push
  simp only [h1, h2, h3, if_true, if_false]

/-- A wrapped value does not exceed the value. -/
theorem wrap64_le (x : Nat) : wrap64 x ≤ x := Nat.mod_le x _

/-- A value below `2 ^ 64` is not changed by wrapping. -/
theorem wrap64_of_lt (x : Nat) (h : x < 2 ^ 64) : wrap64 x = x :=
  Nat.mod_eq_of_lt h

/-- Bulk push with room left: only the count moves. -/
theorem push_n_room {σ : Type} (ngx_palloc : Palloc σ) (s : State σ)
    (n : Nat) (h : wrap64 (s.a.nelts + n) ≤ s.a.nalloc) :
    ngx_array_push_n ngx_palloc s n =
      (some (s.a.elts + s.a.size * s.a.nelts),
        { s with a := { s.a with nelts := wrap64 (s.a.nelts + n) } }) := by
  have h0 : ¬ (wrap64 (s.a.nelts + n) > s.a.nalloc) := Nat.not_lt.mpr h
  unfold ngx_array_push_n
  simp only [h0, if_false]

/-- Bulk push that may grow in place. -/
theorem push_n_grow {σ : Type} (ngx_palloc : Palloc σ) (s : State σ)
    (n : Nat) (h1 : wrap64 (s.a.nelts + n) > s.a.nalloc)
    (h2 : push_n_in_place s n) :
    ngx_array_push_n ngx_palloc s n =
      (some (s.a.elts + s.a.size * s.a.nelts),
        { s with
          a := { s.a with nalloc := wrap64 (s.a.nalloc + n),
                          nelts := wrap64 (s.a.nelts + n) },
          p := { s.p with d_last := s.p.d_last + wrap64 (n * s.a.size) } }) := by
  unfold push_n_in_place at h2
  unfold ngx_array_push_n
  simp only [h1, h2, and_self, if_true]

/-- Bulk push that must move, when the allocator fails. -/
theorem push_n_move_none {σ : Type} (ngx_palloc : Palloc σ) (s : State σ)
    (n : Nat) (p1 : ngx_pool_t σ)
    (h1 : wrap64 (s.a.nelts + n) > s.a.nalloc) (h2 : ¬ push_n_in_place s n)
    (h3 : ngx_palloc s.p
      (wrap64 (wrap64 (2 * (if n ≥ s.a.nalloc then n else s.a.nalloc))
        * s.a.size)) = (none, p1)) :
    ngx_array_push_n ngx_palloc s n = (none, { s with p := p1 }) := by
  unfold push_n_in_place at h2
  unfold ngx_array_push_n
  simp only [h1, h2, h3, if_true, if_false]

/-- Bulk push that must move, when the allocator succeeds. -/
theorem push_n_move_some {σ : Type} (ngx_palloc : Palloc σ) (s : State σ)
    (n new : Nat) (p1 : ngx_pool_t σ)
    (h1 : wrap64 (s.a.nelts + n) > s.a.nalloc) (h2 : ¬ push_n_in_place s n)
    (h3 : ngx_palloc s.p
      (wrap64 (wrap64 (2 * (if n ≥ s.a.nalloc then n else s.a.nalloc))
        * s.a.size)) = (some new, p1)) :
    ngx_array_push_n ngx_palloc s n =
      (some (new + s.a.size * s.a.nelts),
        { a := { s.a with
                 elts := new,
                 nalloc := wrap64 (2 * (if n ≥ s.a.nalloc then n else s.a.nalloc)),
                 nelts := wrap64 (s.a.nelts + n) },
          p := p1,
          mem := ngx_memcpy s.mem new s.a.elts (s.a.nelts * s.a.size) }) := by
  unfold push_n_in_place at h2
  unfold ngx_array_push_n
  simp only [h1, h2, h3, if_true, if_false]

/-- The four ways a push can go, as a case split. -/
theorem push_cases {σ : Type} (ngx_palloc : Palloc σ) (s : State σ) :
    (s.a.nelts ≠ s.a.nalloc) ∨
    (s.a.nelts = s.a.nalloc ∧ push_in_place s) ∨
    (s.a.nelts = s.a.nalloc ∧ ¬ push_in_place s ∧
      ∃ p1, ngx_palloc s.p (2 * (s.a.size * s.a.nalloc)) = (none, p1)) ∨
    (s.a.nelts = s.a.nalloc ∧ ¬ push_in_place s ∧
      ∃ new p1, ngx_palloc s.p (2 * (s.a.size * s.a.nalloc)) = (some new, p1)) := by
  by_cases h1 : s.a.nelts = s.a.nalloc
  · by_cases h2 : push_in_place s
    · exact Or.inr (Or.inl ⟨h1, h2⟩)
    · rcases h : ngx_palloc s.p (2 * (s.a.size * s.a.nalloc)) with ⟨_ | new, p1⟩
      · exact Or.inr (Or.inr (Or.inl ⟨h1, h2, p1, rfl⟩))
      · exact Or.inr (Or.inr (Or.inr ⟨h1, h2, new, p1, rfl⟩))
  · exact Or.inl h1

/-- The four ways a bulk push can go, as a case split. -/
theorem push_n_cases {σ : Type} (ngx_palloc : Palloc σ) (s : State σ)
    (n : Nat) :
    (wrap64 (s.a.nelts + n) ≤ s.a.nalloc) ∨
    (wrap64 (s.a.nelts + n) > s.a.nalloc ∧ push_n_in_place s n) ∨
    (wrap64 (s.a.nelts + n) > s.a.nalloc ∧ ¬ push_n_in_place s n ∧
      ∃ p1, ngx_palloc s.p
        (wrap64 (wrap64 (2 * (if n ≥ s.a.nalloc then n else s.a.nalloc))
          * s.a.size)) = (none, p1)) ∨
    (wrap64 (s.a.nelts + n) > s.a.nalloc ∧ ¬ push_n_in_place s n ∧
      ∃ new p1, ngx_palloc s.p
        (wrap64 (wrap64 (2 * (if n ≥ s.a.nalloc then n else s.a.nalloc))
          * s.a.size)) = (some new, p1)) := by
  by_cases h1 : wrap64 (s.a.nelts + n) > s.a.nalloc
  · by_cases h2 : push_n_in_place s n
    · exact Or.inr (Or.inl ⟨h1, h2⟩)
    · rcases h : ngx_palloc s.p
        (wrap64 (wrap64 (2 * (if n ≥ s.a.nalloc then n else s.a.nalloc))
          * s.a.size))
        with ⟨_ | new, p1⟩
      · exact Or.inr (Or.inr (Or.inl ⟨h1, h2, p1, rfl⟩))
      · exact Or.inr (Or.inr (Or.inr ⟨h1, h2, new, p1, rfl⟩))
  · exact Or.inl (Nat.not_lt.mp h1)

/-! ## The contracts of the two append operations -/

/-- C3: allocation-failure atomicity.  When `ngx_array_push`, or
`ngx_array_push_n`, is on its reallocation path and the request to the
allocator fails, the call returns `NULL` and the array header (`elts`,
`nelts`, `size`, `nalloc`, `pool`) is exactly as before the call; memory is
untouched as well.  The reallocation path and the request are those the
code computes (for `ngx_array_push_n`, in machine words).  More generally,
whenever either call returns `NULL`, header and memory are as before. -/
theorem alloc_error_atomicity {σ : Type} (ngx_palloc : Palloc σ)
    (s : State σ) (n : Nat) :
    (s.a.nelts = s.a.nalloc → ¬ push_in_place s →
      (ngx_palloc s.p (2 * (s.a.size * s.a.nalloc))).1 = none →
      (ngx_array_push ngx_palloc s).1 = none ∧
      (ngx_array_push ngx_palloc s).2.a = s.a ∧
      (ngx_array_push ngx_palloc s).2.mem = s.mem) ∧
    (wrap64 (s.a.nelts + n) > s.a.nalloc → ¬ push_n_in_place s n →
      (ngx_palloc s.p
        (wrap64 (wrap64 (2 * max n s.a.nalloc) * s.a.size))).1 = none →
      (ngx_array_push_n ngx_palloc s n).1 = none ∧
      (ngx_array_push_n ngx_palloc s n).2.a = s.a ∧
      (ngx_array_push_n ngx_palloc s n).2.mem = s.mem) ∧
    ((ngx_array_push ngx_palloc s).1 = none →
      (ngx_array_push ngx_palloc s).2.a = s.a ∧
      (ngx_array_push ngx_palloc s).2.mem = s.mem) ∧
    ((ngx_array_push_n ngx_palloc s n).1 = none →
      (ngx_array_push_n ngx_palloc s n).2.a = s.a ∧
      (ngx_array_push_n ngx_palloc s n).2.mem = s.mem) := by
  refine ⟨?_, ?_, ?_, ?_⟩
  · intro h1 h2 h3
    rcases h : ngx_palloc s.p (2 * (s.a.size * s.a.nalloc)) with ⟨r, p1⟩
    rw [h] at h3
    simp only at h3
    subst h3
    rw [push_move_none ngx_palloc s p1 h1 h2 h]
    exact ⟨rfl, rfl, rfl⟩
  · intro h1 h2 h3
    rw [← ite_ge_eq_max] at h3
    rcases h : ngx_palloc s.p
      (wrap64 (wrap64 (2 * (if n ≥ s.a.nalloc then n else s.a.nalloc))
        * s.a.size)) with ⟨r, p1⟩
    rw [h] at h3
    simp only at h3
    subst h3
    rw [push_n_move_none ngx_palloc s n p1 h1 h2 h]
    exact ⟨rfl, rfl, rfl⟩
  · intro hnone
    rcases push_cases ngx_palloc s with h | ⟨h1, h2⟩ | ⟨h1, h2, p1, h3⟩ |
        ⟨h1, h2, new, p1, h3⟩
    · rw [push_room ngx_palloc s h] at hnone
      exact absurd hnone (by simp)
    · rw [push_grow ngx_palloc s h1 h2] at hnone
      exact absurd hnone (by simp)
    · rw [push_move_none ngx_palloc s p1 h1 h2 h3]
      exact ⟨rfl, rfl⟩
    · rw [push_move_some ngx_palloc s new p1 h1 h2 h3] at hnone
      exact absurd hnone (by simp)
  · intro hnone
    rcases push_n_cases ngx_palloc s n with h | ⟨h1, h2⟩ | ⟨h1, h2, p1, h3⟩ |
        ⟨h1, h2, new, p1, h3⟩
    · rw [push_n_room ngx_palloc s n h] at hnone
      exact absurd hnone (by simp)
    · rw [push_n_grow ngx_palloc s n h1 h2] at hnone
      exact absurd hnone (by simp)
    · rw [push_n_move_none ngx_palloc s n p1 h1 h2 h3]
      exact ⟨rfl, rfl⟩
    · rw [push_n_move_some ngx_palloc s n new p1 h1 h2 h3] at hnone
      exact absurd hnone (by simp)

/-- A run of C3: a full array at the end of a pool that has two bytes
left; both the push and the push of three elements fail and change
nothing in the array. -/
theorem alloc_error_atomicity_witness :
    (((mkState 100 2 4 2 108 110).a.nelts = (mkState 100 2 4 2 108 110).a.nalloc
        ∧ ¬ push_in_place (mkState 100 2 4 2 108 110)
        ∧ (bump_palloc (mkState 100 2 4 2 108 110).p
            (2 * ((mkState 100 2 4 2 108 110).a.size
              * (mkState 100 2 4 2 108 110).a.nalloc))).1 = none) ∧
      ((ngx_array_push bump_palloc (mkState 100 2 4 2 108 110)).1 = none ∧
        (ngx_array_push bump_palloc (mkState 100 2 4 2 108 110)).2.a
          = (mkState 100 2 4 2 108 110).a ∧
        (ngx_array_push bump_palloc (mkState 100 2 4 2 108 110)).2.mem
          = (mkState 100 2 4 2 108 110).mem)) ∧
    ((wrap64 ((mkState 100 2 4 2 108 110).a.nelts + 3)
          > (mkState 100 2 4 2 108 110).a.nalloc
        ∧ ¬ push_n_in_place (mkState 100 2 4 2 108 110) 3
        ∧ (bump_palloc (mkState 100 2 4 2 108 110).p
            (wrap64 (wrap64 (2 * max 3 (mkState 100 2 4 2 108 110).a.nalloc)
              * (mkState 100 2 4 2 108 110).a.size))).1 = none) ∧
      ((ngx_array_push_n bump_palloc (mkState 100 2 4 2 108 110) 3).1 = none ∧
        (ngx_array_push_n bump_palloc (mkState 100 2 4 2 108 110) 3).2.a
          = (mkState 100 2 4 2 108 110).a ∧
        (ngx_array_push_n bump_palloc (mkState 100 2 4 2 108 110) 3).2.mem
          = (mkState 100 2 4 2 108 110).mem)) :=
  ⟨⟨⟨by decide, by decide, by decide⟩,
      (alloc_error_atomicity bump_palloc (mkState 100 2 4 2 108 110) 3).1
        (by decide) (by decide) (by decide)⟩,
    ⟨⟨by decide, by decide, by decide⟩,
      (alloc_error_atomicity bump_palloc (mkState 100 2 4 2 108 110) 3).2.1
        (by decide) (by decide) (by decide)⟩⟩

/-! ## The invariant `nelts ≤ nalloc` and the zero-capacity array -/

/-- After a successful `ngx_array_init` the count is zero, hence within the
capacity, whatever the initial capacity. -/
theorem init_count_le_capacity {σ : Type} (ngx_palloc : Palloc σ)
    (s : State σ) (pool n size : Nat) :
    (ngx_array_init ngx_palloc s pool n size).2.a.nelts = 0 ∧
    (ngx_array_init ngx_palloc s pool n size).2.a.nalloc = n := by
  unfold ngx_array_init
  rcases ngx_palloc s.p (wrap64 (n * size)) with ⟨_ | q, p1⟩ <;> exact ⟨rfl, rfl⟩

/-- Every successful `ngx_array_push_n` keeps `nelts ≤ nalloc`, as long as
`2 * max n nalloc` stays within the machine word. -/
theorem push_n_count_le_capacity {σ : Type} (ngx_palloc : Palloc σ)
    (s : State σ) (n slot : Nat) (hinv : s.a.nelts ≤ s.a.nalloc)
    (hfit : 2 * max n s.a.nalloc < 2 ^ 64)
    (hok : (ngx_array_push_n ngx_palloc s n).1 = some slot) :
    (ngx_array_push_n ngx_palloc s n).2.a.nelts
      ≤ (ngx_array_push_n ngx_palloc s n).2.a.nalloc := by
  have hn : n ≤ max n s.a.nalloc := Nat.le_max_left _ _
  have hc : s.a.nalloc ≤ max n s.a.nalloc := Nat.le_max_right _ _
  have w1 : wrap64 (s.a.nelts + n) = s.a.nelts + n :=
    wrap64_of_lt _ (by omega)
  have w2 : wrap64 (s.a.nalloc + n) = s.a.nalloc + n :=
    wrap64_of_lt _ (by omega)
  have w3 : wrap64 (2 * (if n ≥ s.a.nalloc then n else s.a.nalloc))
      = 2 * max n s.a.nalloc := by
    rw [ite_ge_eq_max]
    exact wrap64_of_lt _ hfit
  rcases push_n_cases ngx_palloc s n with h | ⟨h1, h2⟩ | ⟨h1, h2, p1, h3⟩ |
      ⟨h1, h2, new, p1, h3⟩
  · rw [push_n_room ngx_palloc s n h]
    exact h
  · rw [push_n_grow ngx_palloc s n h1 h2]
    show wrap64 (s.a.nelts + n) ≤ wrap64 (s.a.nalloc + n)
    rw [w1, w2]
    exact Nat.add_le_add_right hinv n
  · rw [push_n_move_none ngx_palloc s n p1 h1 h2 h3] at hok
    exact absurd hok (by simp)
  · rw [push_n_move_some ngx_palloc s n new p1 h1 h2 h3]
    show wrap64 (s.a.nelts + n)
      ≤ wrap64 (2 * (if n ≥ s.a.nalloc then n else s.a.nalloc))
    rw [w1, w3]
    omega

/-- A successful `ngx_array_push` keeps `nelts ≤ nalloc` unless it
reallocates an array of capacity zero. -/
theorem push_count_le_capacity {σ : Type} (ngx_palloc : Palloc σ)
    (s : State σ) (slot : Nat) (hinv : s.a.nelts ≤ s.a.nalloc)
    (hcap : 0 < s.a.nalloc ∨ push_in_place s)
    (hok : (ngx_array_push ngx_palloc s).1 = some slot) :
    (ngx_array_push ngx_palloc s).2.a.nelts
      ≤ (ngx_array_push ngx_palloc s).2.a.nalloc := by
  rcases push_cases ngx_palloc s with h | ⟨h1, h2⟩ | ⟨h1, h2, p1, h3⟩ |
      ⟨h1, h2, new, p1, h3⟩
  · rw [push_room ngx_palloc s h]
    show s.a.nelts + 1 ≤ s.a.nalloc
    omega
  · rw [push_grow ngx_palloc s h1 h2]
    show s.a.nelts + 1 ≤ s.a.nalloc + 1
    omega
  · rw [push_move_none ngx_palloc s p1 h1 h2 h3] at hok
    exact absurd hok (by simp)
  · rw [push_move_some ngx_palloc s new p1 h1 h2 h3]
    show s.a.nelts + 1 ≤ s.a.nalloc * 2
    rcases hcap with hc | hc
    · omega
    · exact absurd hc h2

/-- C4 (the code breaks the invariant): initialised with capacity 0 and no
longer the last allocation of its pool, the array is pushed once; the push
succeeds, returns the slot 116 and leaves `nelts = 1` with `nalloc = 0`, so
`nelts ≤ nalloc` is lost. -/
theorem count_le_capacity_lost_at_zero_capacity :
    (ngx_array_init bump_palloc pool_100_300 1 0 4).1 = NGX_OK ∧
    (ngx_array_init bump_palloc pool_100_300 1 0 4).2.a.nelts
      ≤ (ngx_array_init bump_palloc pool_100_300 1 0 4).2.a.nalloc ∧
    zero_capacity_run.1 = some 116 ∧
    zero_capacity_run.2.a.nelts = 1 ∧
    zero_capacity_run.2.a.nalloc = 0 ∧
    ¬ (zero_capacity_run.2.a.nelts ≤ zero_capacity_run.2.a.nalloc) := by
  decide

/-- C5 (the code does not special-case capacity zero): after a successful
`ngx_array_init` with capacity 0 and element size 4 in a pool with two
bytes left, `ngx_array_push` succeeds and returns the slot 100, yet it has
asked the allocator for 0 bytes (the log holds the request of the init and
the request of the push) and the capacity is still 0. -/
theorem zero_capacity_push_keeps_capacity_zero :
    (ngx_array_init bump_palloc pool_100_102 1 0 4).1 = NGX_OK ∧
    (ngx_array_push bump_palloc
      (ngx_array_init bump_palloc pool_100_102 1 0 4).2).1 = some 100 ∧
    (ngx_array_push bump_palloc
      (ngx_array_init bump_palloc pool_100_102 1 0 4).2).2.a.nalloc = 0 ∧
    (ngx_array_push bump_palloc
      (ngx_array_init bump_palloc pool_100_102 1 0 4).2).2.a.nelts = 1 ∧
    (ngx_array_push bump_palloc
      (ngx_array_init bump_palloc pool_100_102 1 0 4).2).2.p.rest = [0, 0] ∧
    (ngx_array_push bump_palloc
      (ngx_array_init bump_palloc pool_100_102 1 0 4).2).2.p.d_end = 102 := by
  decide

/-! ## The doubling policy -/

/-- C7, the claim as stated fails: a full array of two 4-byte elements that
is not last in its pool is pushed by `n = 2 ^ 63`.  The doubled capacity
`2 * max n nalloc` wraps to 0, so the call requests 0 bytes (the log holds
that one request), succeeds with the slot 208 and leaves `nalloc = 0`,
not `2 * max n nalloc`. -/
theorem push_n_doubling_fails_on_wrap :
    (mkState 100 2 4 2 200 300).a.nelts + 2 ^ 63
      > (mkState 100 2 4 2 200 300).a.nalloc ∧
    ¬ push_n_in_place (mkState 100 2 4 2 200 300) (2 ^ 63) ∧
    (ngx_array_push_n bump_palloc (mkState 100 2 4 2 200 300) (2 ^ 63)).1
      = some 208 ∧
    (ngx_array_push_n bump_palloc (mkState 100 2 4 2 200 300) (2 ^ 63)).2.p.rest
      = [0] ∧
    (ngx_array_push_n bump_palloc (mkState 100 2 4 2 200 300) (2 ^ 63)).2.a.nalloc
      = 0 ∧
    ¬ ((ngx_array_push_n bump_palloc (mkState 100 2 4 2 200 300)
          (2 ^ 63)).2.a.nalloc
        = 2 * max (2 ^ 63) (mkState 100 2 4 2 200 300).a.nalloc) := by
  decide

/-- C7, amended: let `nelts + n`, `2 * max n nalloc` and
`2 * max n nalloc * size` be below `2 ^ 64`.  A successful
`ngx_array_push_n a n` that needs more room (`nelts + n > nalloc`) and
cannot grow in place makes exactly the request
`ngx_palloc(p, 2 * max n nalloc * size)`: the block it installs and the
pool state it leaves are the allocator's answer to that request, and the
capacity afterwards is `2 * max n nalloc` (capacity 4 and `n = 10` give
20, see the run below). -/
theorem push_n_doubling {σ : Type} (ngx_palloc : Palloc σ) (s : State σ)
    (n slot : Nat)
    (hfit1 : s.a.nelts + n < 2 ^ 64)
    (hfit2 : 2 * max n s.a.nalloc < 2 ^ 64)
    (hfit3 : 2 * max n s.a.nalloc * s.a.size < 2 ^ 64)
    (hfull : s.a.nelts + n > s.a.nalloc) (hno : ¬ push_n_in_place s n)
    (hok : (ngx_array_push_n ngx_palloc s n).1 = some slot) :
    (ngx_palloc s.p (2 * max n s.a.nalloc * s.a.size)).1
      = some (ngx_array_push_n ngx_palloc s n).2.a.elts ∧
    (ngx_array_push_n ngx_palloc s n).2.p
      = (ngx_palloc s.p (2 * max n s.a.nalloc * s.a.size)).2 ∧
    (ngx_array_push_n ngx_palloc s n).2.a.nalloc = 2 * max n s.a.nalloc := by
  have w1 : wrap64 (s.a.nelts + n) = s.a.nelts + n := wrap64_of_lt _ hfit1
  have w3 : wrap64 (2 * (if n ≥ s.a.nalloc then n else s.a.nalloc))
      = 2 * max n s.a.nalloc := by
    rw [ite_ge_eq_max]
    exact wrap64_of_lt _ hfit2
  have w4 : wrap64 (wrap64 (2 * (if n ≥ s.a.nalloc then n else s.a.nalloc))
      * s.a.size) = 2 * max n s.a.nalloc * s.a.size := by
    rw [w3]
    exact wrap64_of_lt _ hfit3
  have hfull1 : wrap64 (s.a.nelts + n) > s.a.nalloc := by rw [w1]; exact hfull
  rw [← w4]
  rcases h : ngx_palloc s.p
    (wrap64 (wrap64 (2 * (if n ≥ s.a.nalloc then n else s.a.nalloc)) * s.a.size))
    with ⟨_ | new, p1⟩
  · rw [push_n_move_none ngx_palloc s n p1 hfull1 hno h] at hok
    exact absurd hok (by simp)
  · rw [push_n_move_some ngx_palloc s n new p1 hfull1 hno h]
    exact ⟨rfl, rfl, w3⟩

/-- A run of the amended C7: capacity 4, ten elements of 8 bytes pushed,
the array not last in its pool; the capacity becomes 20 and 160 bytes are
requested. -/
theorem push_n_doubling_witness :
    (((mkState 100 4 8 4 500 1000).a.nelts + 10 < 2 ^ 64
        ∧ 2 * max 10 (mkState 100 4 8 4 500 1000).a.nalloc < 2 ^ 64
        ∧ 2 * max 10 (mkState 100 4 8 4 500 1000).a.nalloc
            * (mkState 100 4 8 4 500 1000).a.size < 2 ^ 64
        ∧ (mkState 100 4 8 4 500 1000).a.nelts + 10
          > (mkState 100 4 8 4 500 1000).a.nalloc
        ∧ ¬ push_n_in_place (mkState 100 4 8 4 500 1000) 10
        ∧ (ngx_array_push_n bump_palloc (mkState 100 4 8 4 500 1000) 10).1
            = some 532) ∧
      (ngx_array_push_n bump_palloc (mkState 100 4 8 4 500 1000) 10).2.a.nalloc
        = 20 ∧
      (ngx_array_push_n bump_palloc (mkState 100 4 8 4 500 1000) 10).2.p.rest
        = [160]) ∧
    ((bump_palloc (mkState 100 4 8 4 500 1000).p
        (2 * max 10 (mkState 100 4 8 4 500 1000).a.nalloc
          * (mkState 100 4 8 4 500 1000).a.size)).1
        = some (ngx_array_push_n bump_palloc
            (mkState 100 4 8 4 500 1000) 10).2.a.elts ∧
      (ngx_array_push_n bump_palloc (mkState 100 4 8 4 500 1000) 10).2.p
        = (bump_palloc (mkState 100 4 8 4 500 1000).p
            (2 * max 10 (mkState 100 4 8 4 500 1000).a.nalloc
              * (mkState 100 4 8 4 500 1000).a.size)).2 ∧
      (ngx_array_push_n bump_palloc (mkState 100 4 8 4 500 1000) 10).2.a.nalloc
        = 2 * max 10 (mkState 100 4 8 4 500 1000).a.nalloc) :=
  ⟨⟨⟨by decide, by decide, by decide, by decide, by decide, by decide⟩,
      by decide, by decide⟩,
    push_n_doubling bump_palloc (mkState 100 4 8 4 500 1000) 10 532
      (by decide) (by decide) (by decide) (by decide) (by decide) (by decide)⟩

/-! ## Relocation copies the elements -/

/-- Inside the destination of a copy, a byte holds what the source held. -/
theorem ngx_memcpy_dst (mem : Memory) (dst src n j : Nat) (hj : j < n) :
    ngx_memcpy mem dst src n (dst + j) = mem (src + j) := by
  unfold ngx_memcpy
  have h : dst ≤ dst + j ∧ dst + j < dst + n := ⟨Nat.le_add_right _ _, by omega⟩
  rw [if_pos h, Nat.add_sub_cancel_left]

/-- A write into a slot reads back inside the slot. -/
theorem write_elt_inside (mem : Memory) (slot size : Nat) (v : Nat → u_char)
    (j : Nat) (hj : j < size) : write_elt mem slot size v (slot + j) = v j := by
  unfold write_elt
  have h : slot ≤ slot + j ∧ slot + j < slot + size :=
    ⟨Nat.le_add_right _ _, by omega⟩
  rw [if_pos h, Nat.add_sub_cancel_left]

/-- A write into a slot leaves the bytes below the slot alone. -/
theorem write_elt_below (mem : Memory) (slot size : Nat) (v : Nat → u_char)
    (x : Nat) (hx : x < slot) : write_elt mem slot size v x = mem x := by
  unfold write_elt
  have h : ¬ (slot ≤ x ∧ x < slot + size) := fun h => by omega
  rw [if_neg h]

/-- Byte `j` of element `i` lies below element `k` when `i < k`. -/
theorem elt_byte_lt (i k size j : Nat) (hi : i < k) (hj : j < size) :
    i * size + j < k * size := by
  have h : (i + 1) * size ≤ k * size := Nat.mul_le_mul_right size hi
  rw [Nat.succ_mul] at h
  omega

/-- What a push leaves behind, whichever path it takes: the element size is
kept, the count grows by one, the slot is element `nelts_before` of the
block afterwards, and every byte of the earlier elements is found at the
same offset of the block afterwards. -/
theorem push_keeps_bytes {σ : Type} (ngx_palloc : Palloc σ) (s : State σ)
    (slot : Nat) (s1 : State σ)
    (h : ngx_array_push ngx_palloc s = (some slot, s1)) :
    s1.a.size = s.a.size ∧ s1.a.nelts = s.a.nelts + 1 ∧
    slot = s1.a.elts + s.a.nelts * s.a.size ∧
    ∀ x, x < s.a.nelts * s.a.size →
      s1.mem (s1.a.elts + x) = s.mem (s.a.elts + x) := by
  rcases push_cases ngx_palloc s with h0 | ⟨h1, h2⟩ | ⟨h1, h2, p1, h3⟩ |
      ⟨h1, h2, new, p1, h3⟩
  · rw [push_room ngx_palloc s h0] at h
    injection h with ha hb
    injection ha with ha
    subst hb
    exact ⟨rfl, rfl, by rw [← ha, Nat.mul_comm], fun _ _ => rfl⟩
  · rw [push_grow ngx_palloc s h1 h2] at h
    injection h with ha hb
    injection ha with ha
    subst hb
    exact ⟨rfl, rfl, by rw [← ha, Nat.mul_comm], fun _ _ => rfl⟩
  · rw [push_move_none ngx_palloc s p1 h1 h2 h3] at h
    injection h with ha hb
    exact absurd ha (by simp)
  · rw [push_move_some ngx_palloc s new p1 h1 h2 h3] at h
    injection h with ha hb
    injection ha with ha
    subst hb
    refine ⟨rfl, rfl, by rw [← ha, Nat.mul_comm], ?_⟩
    intro x hx
    show ngx_memcpy s.mem new s.a.elts (s.a.size * s.a.nalloc) (new + x)
      = s.mem (s.a.elts + x)
    apply ngx_memcpy_dst
    rw [← h1, Nat.mul_comm]
    exact hx

/-- One append of a value extends what the array holds. -/
theorem push_value_holds {σ : Type} (ngx_palloc : Palloc σ) (s s1 : State σ)
    (v : Nat → u_char) (vals : List (Nat → u_char))
    (hs : Holds s vals) (h : push_value ngx_palloc s v = some s1) :
    Holds s1 (vals ++ [v]) ∧ s1.a.size = s.a.size := by
  unfold push_value at h
  rcases hp : ngx_array_push ngx_palloc s with ⟨_ | slot, t⟩
  · rw [hp] at h
    exact absurd h (by simp)
  · rw [hp] at h
    simp only [Option.some.injEq] at h
    obtain ⟨hsize, hcount, hslot, hbytes⟩ := push_keeps_bytes ngx_palloc s slot t hp
    obtain ⟨hlen, hval⟩ := hs
    subst h
    refine ⟨⟨?_, ?_⟩, hsize⟩
    · show t.a.nelts = (vals ++ [v]).length
      rw [hcount, hlen, List.length_append, List.length_singleton]
    · intro i w hw j hj
      show write_elt t.mem slot t.a.size v (t.a.elts + i * t.a.size + j) = w j
      rw [hsize] at hj ⊢
      by_cases hi : i < vals.length
      · rw [List.getElem?_append_left hi] at hw
        have hlt : i * s.a.size + j < s.a.nelts * s.a.size :=
          elt_byte_lt i s.a.nelts s.a.size j (hlen ▸ hi) hj
        rw [write_elt_below _ _ _ _ _ (by rw [hslot]; omega), Nat.add_assoc,
          hbytes _ hlt, ← Nat.add_assoc]
        exact hval i w hw j hj
      · have hge : vals.length ≤ i := Nat.le_of_not_lt hi
        rw [List.getElem?_append_right hge] at hw
        have hi0 : i - vals.length = 0 := by
          by_contra hne
          have h1 : 1 ≤ i - vals.length := Nat.one_le_iff_ne_zero.mpr hne
          rw [List.getElem?_eq_none (by simpa using h1)] at hw
          exact absurd hw (by simp)
        rw [hi0] at hw
        simp only [List.getElem?_cons_zero, Option.some.injEq] at hw
        have hieq : i = s.a.nelts := by omega
        rw [hieq, ← hslot, ← hw]
        exact write_elt_inside _ _ _ _ _ hj

/-- A sequence of appends extends what the array holds by the values
appended, in order. -/
theorem push_values_holds {σ : Type} (ngx_palloc : Palloc σ)
    (vals : List (Nat → u_char)) :
    ∀ (s sk : State σ) (done : List (Nat → u_char)), Holds s done →
      push_values ngx_palloc s vals = some sk →
      Holds sk (done ++ vals) ∧ sk.a.size = s.a.size := by
  induction vals with
  | nil =>
      intro s sk done hs h
      simp only [push_values, Option.some.injEq] at h
      subst h
      rw [List.append_nil]
      exact ⟨hs, rfl⟩
  | cons v vs ih =>
      intro s sk done hs h
      unfold push_values at h
      rcases hp : push_value ngx_palloc s v with _ | s1
      · rw [hp] at h
        exact absurd h (by simp)
      · rw [hp] at h
        simp only at h
        obtain ⟨h1, hsz1⟩ := push_value_holds ngx_palloc s s1 v done hs hp
        obtain ⟨h2, hsz2⟩ := ih s1 sk (done ++ [v]) h1 h
        rw [List.append_assoc, List.singleton_append] at h2
        exact ⟨h2, hsz2.trans hsz1⟩

/-- The header `ngx_array_init` leaves has the given element size and
holds no value. -/
theorem init_holds_nil {σ : Type} (ngx_palloc : Palloc σ) (s : State σ)
    (pool n size : Nat) :
    Holds (ngx_array_init ngx_palloc s pool n size).2 [] ∧
    (ngx_array_init ngx_palloc s pool n size).2.a.size = size := by
  unfold ngx_array_init
  rcases ngx_palloc s.p (wrap64 (n * size)) with ⟨_ | q, p1⟩
  · exact ⟨⟨rfl, fun i v hv => absurd hv (by simp)⟩, rfl⟩
  · exact ⟨⟨rfl, fun i v hv => absurd hv (by simp)⟩, rfl⟩

/-- C9: after `ngx_array_init` with any initial capacity `n0` (zero
included) and element size `sz`, and `k` successful pushes in which the
caller stores the values `vals` (the `i`-th value into the `i`-th returned
slot), the count is `k` and for every `i < k` element `i` of the current
block holds the `i`-th value, byte for byte: no later push, relocating or
not, overwrites an earlier slot. -/
theorem pushes_keep_values {σ : Type} (ngx_palloc : Palloc σ) (s sk : State σ)
    (pool n0 sz : Nat) (vals : List (Nat → u_char))
    (_hinit : (ngx_array_init ngx_palloc s pool n0 sz).1 = NGX_OK)
    (hpush : push_values ngx_palloc
      (ngx_array_init ngx_palloc s pool n0 sz).2 vals = some sk) :
    sk.a.nelts = vals.length ∧
    ∀ i v, vals[i]? = some v → ∀ j, j < sz →
      sk.mem (sk.a.elts + i * sz + j) = v j := by
  obtain ⟨h0, hsz0⟩ := init_holds_nil ngx_palloc s pool n0 sz
  obtain ⟨⟨hlen, hval⟩, hsz⟩ := push_values_holds ngx_palloc vals _ sk [] h0 hpush
  rw [List.nil_append] at hlen hval
  rw [hsz0] at hsz
  rw [hsz] at hval
  exact ⟨hlen, hval⟩

/-- A run of C9: initial capacity 1, element size 4, three values; the
second push grows in place, the third moves the block from 100 to 1000. -/
theorem pushes_keep_values_witness :
    (ngx_array_init chain_palloc chain_state 1 1 4).1 = NGX_OK ∧
    ∃ sk, push_values chain_palloc
        (ngx_array_init chain_palloc chain_state 1 1 4).2 three_values
          = some sk ∧
      sk.a.elts = 1000 ∧
      (sk.a.nelts = three_values.length ∧
        ∀ i v, three_values[i]? = some v → ∀ j, j < 4 →
          sk.mem (sk.a.elts + i * 4 + j) = v j) :=
  ⟨by decide, _, rfl, by decide,
    pushes_keep_values chain_palloc chain_state _ 1 1 4 three_values
      (by decide) rfl⟩

/-! ## Growth in place -/

/-- While the block ends at the cursor and `k` elements fit between the
cursor and the end of the pool, `k` pushes succeed and leave the block
where it is. -/
theorem pushes_in_place {σ : Type} (ngx_palloc : Palloc σ) (k : Nat) :
    ∀ (s : State σ) (m : Nat),
      s.a.elts + s.a.size * s.a.nalloc = s.p.d_last →
      s.p.d_last + m ≤ s.p.d_end → k * s.a.size ≤ m →
      ∃ sk, pushes ngx_palloc k s = some sk ∧ sk.a.elts = s.a.elts := by
  induction k with
  | zero =>
      intro s m _ _ _
      exact ⟨s, rfl, rfl⟩
  | succ k ih =>
      intro s m hlast hfree hk
      rw [Nat.succ_mul] at hk
      unfold pushes
      by_cases h1 : s.a.nelts = s.a.nalloc
      · have h2 : push_in_place s := ⟨hlast, by omega⟩
        rw [push_grow ngx_palloc s h1 h2]
        have hlast1 : s.a.elts + s.a.size * (s.a.nalloc + 1)
            = s.p.d_last + s.a.size := by
          rw [Nat.mul_succ, ← Nat.add_assoc, hlast]
        have hfree1 : s.p.d_last + s.a.size + (m - s.a.size) ≤ s.p.d_end := by
          omega
        have hk1 : k * s.a.size ≤ m - s.a.size := by omega
        exact ih _ (m - s.a.size) hlast1 hfree1 hk1
      · rw [push_room ngx_palloc s h1]
        have hk1 : k * s.a.size ≤ m := by omega
        exact ih _ m hlast hfree hk1

/-- C10: if the block of the array is the last allocation of its pool
(`elts + nalloc * size` is the cursor) and exactly `m` bytes lie between
the cursor and the end of the pool, then for every `k` up to
`m / size` the next `k` calls of `ngx_array_push` all succeed and the
`elts` pointer after them is the one before the first. -/
theorem in_place_growth_never_relocates {σ : Type} (ngx_palloc : Palloc σ)
    (s : State σ) (m k : Nat)
    (hlast : s.a.elts + s.a.nalloc * s.a.size = s.p.d_last)
    (hfree : s.p.d_last + m = s.p.d_end)
    (hk : k ≤ m / s.a.size) :
    ∃ sk, pushes ngx_palloc k s = some sk ∧ sk.a.elts = s.a.elts := by
  have hk1 : k * s.a.size ≤ m :=
    Nat.le_trans (Nat.mul_le_mul_right _ hk) (Nat.div_mul_le_self m s.a.size)
  rw [Nat.mul_comm] at hlast
  exact pushes_in_place ngx_palloc k s m hlast (Nat.le_of_eq hfree) hk1

/-- A run of C10: a full array of two 4-byte elements that ends at the
cursor 108 of a pool ending at 118; ten bytes are free, so two pushes
stay in place, even with an allocator that never serves a request. -/
theorem in_place_growth_never_relocates_witness :
    ((mkState 100 2 4 2 108 118).a.elts
        + (mkState 100 2 4 2 108 118).a.nalloc * (mkState 100 2 4 2 108 118).a.size
        = (mkState 100 2 4 2 108 118).p.d_last
      ∧ (mkState 100 2 4 2 108 118).p.d_last + 10
        = (mkState 100 2 4 2 108 118).p.d_end
      ∧ 2 ≤ 10 / (mkState 100 2 4 2 108 118).a.size) ∧
    ∃ sk, pushes fail_palloc 2 (mkState 100 2 4 2 108 118) = some sk ∧
      sk.a.elts = (mkState 100 2 4 2 108 118).a.elts :=
  ⟨⟨by decide, by decide, by decide⟩,
    in_place_growth_never_relocates fail_palloc (mkState 100 2 4 2 108 118) 10 2
      (by decide) (by decide) (by decide)⟩

/-- The sample bump allocator serves every request at the cursor. -/
theorem bump_palloc_at_cursor (p : ngx_pool_t (List Nat)) (size q : Nat)
    (h : (bump_palloc p size).1 = some q) : q = p.d_last := by
  unfold bump_palloc at h
  by_cases hroom : p.d_last + size ≤ p.d_end
  · rw [if_pos hroom] at h
    simp only [Option.some.injEq] at h
    exact h.symm
  · rw [if_neg hroom] at h
    exact absurd h (by simp)

/-- C12: when the element block is the most recent allocation of the pool
(`elts + nalloc * size` is the cursor) and the header lies immediately
before it (`a + sizeof(ngx_array_t) = elts`), `ngx_array_destroy` leaves
the cursor at the address of the header and changes nothing else in the
pool; hence an allocator that serves requests at the cursor returns the
address of the header for the next allocation. -/
theorem destroy_reclaims_block_then_header {σ : Type}
    (sizeof_ngx_array_t a : Nat) (ngx_palloc : Palloc σ) (s : State σ)
    (hlast : s.a.elts + s.a.nalloc * s.a.size = s.p.d_last)
    (hhdr : a + sizeof_ngx_array_t = s.a.elts)
    (hbump : ∀ (p : ngx_pool_t σ) (size q : Nat),
      (ngx_palloc p size).1 = some q → q = p.d_last) :
    (ngx_array_destroy sizeof_ngx_array_t a s).p.d_last = a ∧
    (ngx_array_destroy sizeof_ngx_array_t a s).p.d_end = s.p.d_end ∧
    (ngx_array_destroy sizeof_ngx_array_t a s).p.rest = s.p.rest ∧
    ∀ size q,
      (ngx_palloc (ngx_array_destroy sizeof_ngx_array_t a s).p size).1 = some q →
      q = a := by
  have h1 : s.a.elts + s.a.size * s.a.nalloc = s.p.d_last := by
    rw [Nat.mul_comm]; exact hlast
  have h2 : a + sizeof_ngx_array_t = s.p.d_last - s.a.size * s.a.nalloc := by
    omega
  have hd : ngx_array_destroy sizeof_ngx_array_t a s
      = { s with p := { s.p with d_last := a } } := by
    unfold ngx_array_destroy
    simp only [h1, h2, if_true]
  rw [hd]
  refine ⟨rfl, rfl, rfl, ?_⟩
  intro size q hq
  exact hbump _ size q hq

/-- A run of C12: header at 100 (40 bytes), block of two 4-byte elements
at 140, cursor 148; after the destroy the cursor is 100 and the next
allocation of 8 bytes returns 100. -/
theorem destroy_reclaims_block_then_header_witness :
    ((mkState 140 2 4 2 148 300).a.elts
        + (mkState 140 2 4 2 148 300).a.nalloc * (mkState 140 2 4 2 148 300).a.size
        = (mkState 140 2 4 2 148 300).p.d_last
      ∧ 100 + 40 = (mkState 140 2 4 2 148 300).a.elts
      ∧ (bump_palloc (ngx_array_destroy 40 100 (mkState 140 2 4 2 148 300)).p 8).1
          = some 100) ∧
    ((ngx_array_destroy 40 100 (mkState 140 2 4 2 148 300)).p.d_last = 100 ∧
      (ngx_array_destroy 40 100 (mkState 140 2 4 2 148 300)).p.d_end
        = (mkState 140 2 4 2 148 300).p.d_end ∧
      (ngx_array_destroy 40 100 (mkState 140 2 4 2 148 300)).p.rest
        = (mkState 140 2 4 2 148 300).p.rest ∧
      ∀ size q,
        (bump_palloc (ngx_array_destroy 40 100 (mkState 140 2 4 2 148 300)).p
          size).1 = some q →
        q = 100) :=
  ⟨⟨by decide, by decide, by decide⟩,
    destroy_reclaims_block_then_header 40 100 bump_palloc
      (mkState 140 2 4 2 148 300) (by decide) (by decide)
      bump_palloc_at_cursor⟩

/-- C13, the claim as stated fails: an array is created (header at 100,
block of two 4-byte elements at 140, cursor 148, two bytes left in the
active block); a later allocation of 8 bytes from the same pool is served
from the second region, at 1000, and leaves the cursor at 148.  Another
allocation was thus made after the element block, yet `ngx_array_destroy`
moves the cursor from 148 to 100. -/
theorem destroy_moves_cursor_after_later_alloc :
    created_run.1 = some 100 ∧
    created_run.2.a.elts = 140 ∧ created_run.2.p.d_last = 148 ∧
    (chain_palloc created_run.2.p 8).1 = some 1000 ∧
    later_alloc_run.p.d_last = 148 ∧
    (ngx_array_destroy 40 100 later_alloc_run).p.d_last = 100 ∧
    ¬ ((ngx_array_destroy 40 100 later_alloc_run).p.d_last
        = later_alloc_run.p.d_last) := by
  decide

/-- C13, amended: if the allocation made after the element block has moved
the cursor past the end of the block (`elts + nalloc * size < cursor`),
`ngx_array_destroy` does not give the block back, and the cursor stays
exactly where it was unless the header itself ends at the cursor; in
particular it stays for every header that lies before its block
(`a + sizeof(ngx_array_t) ≤ elts`), which is where `ngx_array_init` and
`ngx_array_create` leave it.  A header that ends at the cursor is given
back: the cursor becomes its address.  The end of the pool never moves. -/
theorem destroy_keeps_cursor {σ : Type} (sizeof_ngx_array_t a : Nat)
    (s : State σ)
    (hpast : s.a.elts + s.a.nalloc * s.a.size < s.p.d_last) :
    (a + sizeof_ngx_array_t ≠ s.p.d_last →
      (ngx_array_destroy sizeof_ngx_array_t a s).p.d_last = s.p.d_last) ∧
    (a + sizeof_ngx_array_t ≤ s.a.elts →
      (ngx_array_destroy sizeof_ngx_array_t a s).p.d_last = s.p.d_last) ∧
    (a + sizeof_ngx_array_t = s.p.d_last →
      (ngx_array_destroy sizeof_ngx_array_t a s).p.d_last = a) ∧
    (ngx_array_destroy sizeof_ngx_array_t a s).p.d_end = s.p.d_end := by
  have h1 : ¬ (s.a.elts + s.a.size * s.a.nalloc = s.p.d_last) := by
    rw [Nat.mul_comm]; omega
  have hle : s.a.elts ≤ s.a.elts + s.a.nalloc * s.a.size := Nat.le_add_right _ _
  unfold ngx_array_destroy
  simp only [h1, if_false]
  by_cases h2 : a + sizeof_ngx_array_t = s.p.d_last
  · rw [if_pos h2]
    exact ⟨fun h => absurd h2 h, fun h => by omega, fun _ => rfl, rfl⟩
  · rw [if_neg h2]
    exact ⟨fun _ => rfl, fun _ => rfl, fun h => absurd h h2, rfl⟩

/-- A run of the amended C13: header at 100 (40 bytes), block of two
4-byte elements at 140, then an allocation of 16 bytes at 148 that moved
the cursor to 164; the cursor stays at 164. -/
theorem destroy_keeps_cursor_witness :
    ((mkState 140 2 4 2 164 300).a.elts
        + (mkState 140 2 4 2 164 300).a.nalloc * (mkState 140 2 4 2 164 300).a.size
      < (mkState 140 2 4 2 164 300).p.d_last ∧
      100 + 40 ≤ (mkState 140 2 4 2 164 300).a.elts ∧
      (ngx_array_destroy 40 100 (mkState 140 2 4 2 164 300)).p.d_last = 164) ∧
    ((100 + 40 ≠ (mkState 140 2 4 2 164 300).p.d_last →
        (ngx_array_destroy 40 100 (mkState 140 2 4 2 164 300)).p.d_last
          = (mkState 140 2 4 2 164 300).p.d_last) ∧
      (100 + 40 ≤ (mkState 140 2 4 2 164 300).a.elts →
        (ngx_array_destroy 40 100 (mkState 140 2 4 2 164 300)).p.d_last
          = (mkState 140 2 4 2 164 300).p.d_last) ∧
      (100 + 40 = (mkState 140 2 4 2 164 300).p.d_last →
        (ngx_array_destroy 40 100 (mkState 140 2 4 2 164 300)).p.d_last = 100) ∧
      (ngx_array_destroy 40 100 (mkState 140 2 4 2 164 300)).p.d_end
        = (mkState 140 2 4 2 164 300).p.d_end) :=
  ⟨⟨by decide, by decide, by decide⟩,
    destroy_keeps_cursor 40 100 (mkState 140 2 4 2 164 300) (by decide)⟩

/-! ## Init and create -/

/-- Init when the allocator fails. -/
theorem init_none {σ : Type} (ngx_palloc : Palloc σ) (s : State σ)
    (pool n size : Nat) (p1 : ngx_pool_t σ)
    (h : ngx_palloc s.p (wrap64 (n * size)) = (none, p1)) :
    ngx_array_init ngx_palloc s pool n size =
      (NGX_ERROR,
        { s with
          a := { elts := NULL, nelts := 0, size := size, nalloc := n,
                 pool := pool },
          p := p1 }) := by
  unfold ngx_array_init
  simp only [h]

/-- Init when the allocator succeeds. -/
theorem init_some {σ : Type} (ngx_palloc : Palloc σ) (s : State σ)
    (pool n size q : Nat) (p1 : ngx_pool_t σ)
    (h : ngx_palloc s.p (wrap64 (n * size)) = (some q, p1)) :
    ngx_array_init ngx_palloc s pool n size =
      (NGX_OK,
        { s with
          a := { elts := q, nelts := 0, size := size, nalloc := n,
                 pool := pool },
          p := p1 }) := by
  unfold ngx_array_init
  simp only [h]

/-- The two result codes differ. -/
theorem NGX_ERROR_ne_OK : NGX_ERROR ≠ NGX_OK := by decide

/-- C14, the claim as stated fails: `ngx_array_init` with `n = 2 ^ 63` and
`size = 2` in a pool with two bytes left.  The product `n * size` wraps to
0, so the request is for 0 bytes (the log holds it) and the call returns
`NGX_OK` with `nalloc = 2 ^ 63`, although a request of `n * size` bytes
fails in this pool. -/
theorem init_request_wraps :
    (ngx_array_init bump_palloc pool_100_102 1 (2 ^ 63) 2).1 = NGX_OK ∧
    (ngx_array_init bump_palloc pool_100_102 1 (2 ^ 63) 2).2.p.rest = [0] ∧
    (ngx_array_init bump_palloc pool_100_102 1 (2 ^ 63) 2).2.a.nalloc = 2 ^ 63 ∧
    (bump_palloc pool_100_102.p (2 ^ 63 * 2)).1 = none ∧
    ¬ ((ngx_array_init bump_palloc pool_100_102 1 (2 ^ 63) 2).1 = NGX_OK ↔
      ∃ q, (bump_palloc pool_100_102.p (2 ^ 63 * 2)).1 = some q) := by
  refine ⟨by decide, by decide, by decide, by decide, ?_⟩
  intro h
  obtain ⟨q, hq⟩ := h.mp (by decide)
  have hn : (bump_palloc pool_100_102.p (2 ^ 63 * 2)).1 = none := by decide
  rw [hn] at hq
  exact absurd hq (by simp)

/-- C14, amended: when `n * size < 2 ^ 64`,
`ngx_array_init(array, pool, n, size)` makes exactly the request
`ngx_palloc(pool, n * size)` (the pool state it leaves is the allocator's
answer to it); it returns `NGX_OK` exactly when that request succeeds, and
then the header is `nelts = 0`, `nalloc = n`, `size = size`, `pool = pool`,
`elts` = the block returned; when the request fails it returns
`NGX_ERROR`; in both cases `nelts` is 0 after the call. -/
theorem ngx_array_init_contract {σ : Type} (ngx_palloc : Palloc σ)
    (s : State σ) (pool n size : Nat)
    (hfit : n * size < 2 ^ 64) :
    (ngx_array_init ngx_palloc s pool n size).2.p
      = (ngx_palloc s.p (n * size)).2 ∧
    ((ngx_array_init ngx_palloc s pool n size).1 = NGX_OK ↔
      ∃ q, (ngx_palloc s.p (n * size)).1 = some q) ∧
    (∀ q, (ngx_palloc s.p (n * size)).1 = some q →
      (ngx_array_init ngx_palloc s pool n size).2.a
        = { elts := q, nelts := 0, size := size, nalloc := n, pool := pool }) ∧
    ((ngx_palloc s.p (n * size)).1 = none →
      (ngx_array_init ngx_palloc s pool n size).1 = NGX_ERROR) ∧
    (ngx_array_init ngx_palloc s pool n size).2.a.nelts = 0 ∧
    (ngx_array_init ngx_palloc s pool n size).2.mem = s.mem := by
  have w : wrap64 (n * size) = n * size := wrap64_of_lt _ hfit
  rcases h : ngx_palloc s.p (n * size) with ⟨_ | q, p1⟩
  · rw [init_none ngx_palloc s pool n size p1 (by rw [w]; exact h)]
    refine ⟨rfl, ⟨fun h0 => absurd h0 NGX_ERROR_ne_OK, ?_⟩, ?_, fun _ => rfl,
      rfl, rfl⟩
    · rintro ⟨q, hq⟩
      exact absurd hq (by simp)
    · intro q hq
      exact absurd hq (by simp)
  · rw [init_some ngx_palloc s pool n size q p1 (by rw [w]; exact h)]
    refine ⟨rfl, ⟨fun _ => ⟨q, rfl⟩, fun _ => rfl⟩, ?_, ?_, rfl, rfl⟩
    · intro q1 hq1
      simp only [Option.some.injEq] at hq1
      subst hq1
      rfl
    · intro h0
      exact absurd h0 (by simp)

/-- A run of the amended C14: capacity 3, element size 4, in a pool with
cursor 100 and end 300; 12 bytes are requested and the block is at 100. -/
theorem ngx_array_init_contract_witness :
    (3 * 4 < 2 ^ 64 ∧
      (ngx_array_init bump_palloc pool_100_300 1 3 4).1 = NGX_OK ∧
      (ngx_array_init bump_palloc pool_100_300 1 3 4).2.p.rest = [12] ∧
      (ngx_array_init bump_palloc pool_100_300 1 3 4).2.a.elts = 100) ∧
    ((ngx_array_init bump_palloc pool_100_300 1 3 4).2.p
        = (bump_palloc pool_100_300.p (3 * 4)).2 ∧
      ((ngx_array_init bump_palloc pool_100_300 1 3 4).1 = NGX_OK ↔
        ∃ q, (bump_palloc pool_100_300.p (3 * 4)).1 = some q) ∧
      (∀ q, (bump_palloc pool_100_300.p (3 * 4)).1 = some q →
        (ngx_array_init bump_palloc pool_100_300 1 3 4).2.a
          = { elts := q, nelts := 0, size := 4, nalloc := 3, pool := 1 }) ∧
      ((bump_palloc pool_100_300.p (3 * 4)).1 = none →
        (ngx_array_init bump_palloc pool_100_300 1 3 4).1 = NGX_ERROR) ∧
      (ngx_array_init bump_palloc pool_100_300 1 3 4).2.a.nelts = 0 ∧
      (ngx_array_init bump_palloc pool_100_300 1 3 4).2.mem = pool_100_300.mem) :=
  ⟨⟨by decide, by decide, by decide, by decide⟩,
    ngx_array_init_contract bump_palloc pool_100_300 1 3 4 (by decide)⟩

/-- C15, the claim as stated fails: `ngx_array_create` with a header of 40
bytes, `n = 2 ^ 63` and `size = 2` in a pool with cursor 100 and end 300.
The header is served at 100; the product `n * size` wraps to 0, so the
element request is for 0 bytes (the log holds 40 and 0) and the call
returns the header, although a request of `n * size` bytes made after the
header request fails. -/
theorem create_request_wraps :
    (ngx_array_create 40 bump_palloc pool_100_300 1 (2 ^ 63) 2).1 = some 100 ∧
    (ngx_array_create 40 bump_palloc pool_100_300 1 (2 ^ 63) 2).2.p.rest
      = [40, 0] ∧
    (bump_palloc pool_100_300.p 40).1 = some 100 ∧
    (bump_palloc (bump_palloc pool_100_300.p 40).2 (2 ^ 63 * 2)).1 = none ∧
    ¬ ((ngx_array_create 40 bump_palloc pool_100_300 1 (2 ^ 63) 2).1 = none ↔
      (bump_palloc pool_100_300.p 40).1 = none ∨
      (bump_palloc (bump_palloc pool_100_300.p 40).2 (2 ^ 63 * 2)).1 = none) := by
  refine ⟨by decide, by decide, by decide, by decide, ?_⟩
  intro h
  have hnone := h.mpr (Or.inr (by decide))
  exact absurd hnone (by decide)

/-- C15, amended: when `n * size < 2 ^ 64`, `ngx_array_create(p, n, size)`
returns `NULL` exactly when the request for the header fails or the request
for `n * size` bytes of elements, made on the pool state the header request
left, fails; when it succeeds, the address returned is the block of the
header request, the header is `nelts = 0`, `nalloc = n`, `size = size` with
`elts` the block of the element request, and the pool is as the element
request left it: the header was allocated first, the elements after it. -/
theorem ngx_array_create_contract {σ : Type} (sizeof_ngx_array_t : Nat)
    (ngx_palloc : Palloc σ) (s : State σ) (pool n size : Nat)
    (hfit : n * size < 2 ^ 64) :
    ((ngx_array_create sizeof_ngx_array_t ngx_palloc s pool n size).1 = none ↔
      (ngx_palloc s.p sizeof_ngx_array_t).1 = none ∨
      (ngx_palloc (ngx_palloc s.p sizeof_ngx_array_t).2 (n * size)).1 = none) ∧
    (∀ a, (ngx_array_create sizeof_ngx_array_t ngx_palloc s pool n size).1
        = some a →
      (ngx_palloc s.p sizeof_ngx_array_t).1 = some a ∧
      ∃ q, (ngx_palloc (ngx_palloc s.p sizeof_ngx_array_t).2 (n * size)).1
          = some q ∧
        (ngx_array_create sizeof_ngx_array_t ngx_palloc s pool n size).2.a
          = { elts := q, nelts := 0, size := size, nalloc := n, pool := pool } ∧
        (ngx_array_create sizeof_ngx_array_t ngx_palloc s pool n size).2.p
          = (ngx_palloc (ngx_palloc s.p sizeof_ngx_array_t).2 (n * size)).2) := by
  have w : wrap64 (n * size) = n * size := wrap64_of_lt _ hfit
  unfold ngx_array_create
  rcases h : ngx_palloc s.p sizeof_ngx_array_t with ⟨_ | a, p1⟩
  · exact ⟨⟨fun _ => Or.inl rfl, fun _ => rfl⟩, fun a h0 => absurd h0 (by simp)⟩
  · rcases h2 : ngx_palloc p1 (n * size) with ⟨_ | q, p2⟩
    · have hi := init_none ngx_palloc { s with p := p1 } pool n size p2
        (by rw [w]; exact h2)
      simp only [hi, ne_eq, NGX_ERROR_ne_OK, not_false_eq_true, if_true]
      exact ⟨⟨fun _ => Or.inr trivial, fun _ => trivial⟩,
        fun a h0 => absurd h0 (by simp)⟩
    · have hi := init_some ngx_palloc { s with p := p1 } pool n size q p2
        (by rw [w]; exact h2)
      simp only [hi, ne_eq, not_true_eq_false, if_false]
      refine ⟨⟨fun h0 => absurd h0 (by simp), fun h0 => ?_⟩, ?_⟩
      · rcases h0 with h0 | h0 <;> exact absurd h0 (by simp)
      · intro a1 h1
        simp only [Option.some.injEq] at h1
        subst h1
        exact ⟨rfl, q, rfl, rfl, trivial⟩

/-- A run of the amended C15: header of 40 bytes at 100, then three 4-byte
elements at 140. -/
theorem ngx_array_create_contract_witness :
    (3 * 4 < 2 ^ 64 ∧
      (ngx_array_create 40 bump_palloc pool_100_300 1 3 4).1 = some 100 ∧
      (ngx_array_create 40 bump_palloc pool_100_300 1 3 4).2.a.elts = 140 ∧
      (ngx_array_create 40 bump_palloc pool_100_300 1 3 4).2.p.rest = [40, 12]) ∧
    (((ngx_array_create 40 bump_palloc pool_100_300 1 3 4).1 = none ↔
        (bump_palloc pool_100_300.p 40).1 = none ∨
        (bump_palloc (bump_palloc pool_100_300.p 40).2 (3 * 4)).1 = none) ∧
      (∀ a, (ngx_array_create 40 bump_palloc pool_100_300 1 3 4).1 = some a →
        (bump_palloc pool_100_300.p 40).1 = some a ∧
        ∃ q, (bump_palloc (bump_palloc pool_100_300.p 40).2 (3 * 4)).1 = some q ∧
          (ngx_array_create 40 bump_palloc pool_100_300 1 3 4).2.a
            = { elts := q, nelts := 0, size := 4, nalloc := 3, pool := 1 } ∧
          (ngx_array_create 40 bump_palloc pool_100_300 1 3 4).2.p
            = (bump_palloc (bump_palloc pool_100_300.p 40).2 (3 * 4)).2)) :=
  ⟨⟨by decide, by decide, by decide, by decide⟩,
    ngx_array_create_contract 40 bump_palloc pool_100_300 1 3 4 (by decide)⟩

/-! ## The choice between growth in place and reallocation -/

/-- C18: with room left (`nelts < nalloc` for `ngx_array_push`,
`nelts + n ≤ nalloc` for `ngx_array_push_n`) the call succeeds with the
slot `elts + size * nelts`, and the state afterwards is the state before
with only `nelts` advanced, by 1 or by `n` (for `ngx_array_push_n` as a
machine word, which is `nelts + n` itself as soon as `nalloc` is a machine
word): `nalloc`, `elts`, `size`, the whole pool and memory are unchanged,
whatever the allocator is. -/
theorem no_growth_with_room {σ : Type} (ngx_palloc : Palloc σ)
    (s : State σ) (n : Nat) :
    (s.a.nelts < s.a.nalloc →
      ngx_array_push ngx_palloc s =
        (some (s.a.elts + s.a.size * s.a.nelts),
          { s with a := { s.a with nelts := s.a.nelts + 1 } }) ∧
      (ngx_array_push ngx_palloc s).2.a.nalloc = s.a.nalloc ∧
      (ngx_array_push ngx_palloc s).2.a.elts = s.a.elts ∧
      (ngx_array_push ngx_palloc s).2.a.size = s.a.size ∧
      (ngx_array_push ngx_palloc s).2.p = s.p) ∧
    (s.a.nelts + n ≤ s.a.nalloc →
      ngx_array_push_n ngx_palloc s n =
        (some (s.a.elts + s.a.size * s.a.nelts),
          { s with a := { s.a with nelts := wrap64 (s.a.nelts + n) } }) ∧
      (ngx_array_push_n ngx_palloc s n).2.a.nalloc = s.a.nalloc ∧
      (ngx_array_push_n ngx_palloc s n).2.a.elts = s.a.elts ∧
      (ngx_array_push_n ngx_palloc s n).2.a.size = s.a.size ∧
      (ngx_array_push_n ngx_palloc s n).2.p = s.p ∧
      (s.a.nalloc < 2 ^ 64 →
        (ngx_array_push_n ngx_palloc s n).2.a.nelts = s.a.nelts + n)) := by
  constructor
  · intro h
    rw [push_room ngx_palloc s (Nat.ne_of_lt h)]
    exact ⟨rfl, rfl, rfl, rfl, rfl⟩
  · intro h
    have hw : wrap64 (s.a.nelts + n) ≤ s.a.nalloc :=
      Nat.le_trans (wrap64_le _) h
    rw [push_n_room ngx_palloc s n hw]
    refine ⟨rfl, rfl, rfl, rfl, rfl, ?_⟩
    intro hword
    exact wrap64_of_lt _ (Nat.lt_of_le_of_lt h hword)

/-! ## Push against push_n with `n = 1` -/

/-- The sample bump allocator returns blocks that end at its new cursor
and keeps the cursor within the pool. -/
theorem bump_palloc_bounds (p : ngx_pool_t (List Nat)) (size q : Nat)
    (p1 : ngx_pool_t (List Nat)) (h : bump_palloc p size = (some q, p1)) :
    q + size ≤ p1.d_last ∧ p1.d_last ≤ p1.d_end := by
  unfold bump_palloc at h
  by_cases hroom : p.d_last + size ≤ p.d_end
  · rw [if_pos hroom] at h
    injection h with hq hp
    injection hq with hq
    subst hq
    subst hp
    exact ⟨Nat.le_refl _, hroom⟩
  · rw [if_neg hroom] at h
    injection h with hq hp
    exact absurd hq (by simp)

/-- C20, the claim as stated fails: the sample bump allocator returns only
blocks that end at its new cursor and keeps the cursor within the pool;
the full array of two 4-byte elements ends at the cursor 108 of a pool
ending at 200, so both bounds hold before the call.  Pushed by
`n = 2 ^ 62`, whose byte size wraps to 0, the array grows in place: the
call succeeds, the cursor stays at 108 and `nalloc` becomes `2 ^ 62 + 2`,
so the block of the array no longer ends at or before the cursor. -/
theorem arena_bounds_lost_on_wrap :
    (∀ (p : ngx_pool_t (List Nat)) (size q : Nat) (p1 : ngx_pool_t (List Nat)),
      bump_palloc p size = (some q, p1) →
      q + size ≤ p1.d_last ∧ p1.d_last ≤ p1.d_end) ∧
    full_last_state.p.d_last ≤ full_last_state.p.d_end ∧
    full_last_state.a.elts + full_last_state.a.nalloc * full_last_state.a.size
      ≤ full_last_state.p.d_last ∧
    (ngx_array_push_n bump_palloc full_last_state (2 ^ 62)).1 = some 108 ∧
    (ngx_array_push_n bump_palloc full_last_state (2 ^ 62)).2.p.d_last = 108 ∧
    (ngx_array_push_n bump_palloc full_last_state (2 ^ 62)).2.a.nalloc
      = 2 ^ 62 + 2 ∧
    ¬ ((ngx_array_push_n bump_palloc full_last_state (2 ^ 62)).2.a.elts
        + (ngx_array_push_n bump_palloc full_last_state (2 ^ 62)).2.a.nalloc
          * (ngx_array_push_n bump_palloc full_last_state (2 ^ 62)).2.a.size
      ≤ (ngx_array_push_n bump_palloc full_last_state (2 ^ 62)).2.p.d_last) :=
  ⟨bump_palloc_bounds, by decide, by decide, by decide, by decide, by decide,
    by decide⟩

/-- C20, amended: let the allocator return only blocks that end at or
before the cursor it leaves, and leave the cursor at or before the end of
the pool.  If before the call `cursor ≤ end` and the block of the array
ends at or before the cursor (`elts + nalloc * size ≤ cursor`), then both
still hold after every successful `ngx_array_push`, and after every
successful `ngx_array_push_n a n` for which `2 * max n nalloc` and
`2 * max n nalloc * size` are below `2 ^ 64`. -/
theorem arena_bounds_preserved {σ : Type} (ngx_palloc : Palloc σ)
    (s : State σ) (n : Nat)
    (halloc : ∀ (p : ngx_pool_t σ) (size q : Nat) (p1 : ngx_pool_t σ),
      ngx_palloc p size = (some q, p1) →
      q + size ≤ p1.d_last ∧ p1.d_last ≤ p1.d_end)
    (hcur : s.p.d_last ≤ s.p.d_end)
    (hblk : s.a.elts + s.a.nalloc * s.a.size ≤ s.p.d_last) :
    (∀ slot, (ngx_array_push ngx_palloc s).1 = some slot →
      (ngx_array_push ngx_palloc s).2.p.d_last
        ≤ (ngx_array_push ngx_palloc s).2.p.d_end ∧
      (ngx_array_push ngx_palloc s).2.a.elts
          + (ngx_array_push ngx_palloc s).2.a.nalloc
            * (ngx_array_push ngx_palloc s).2.a.size
        ≤ (ngx_array_push ngx_palloc s).2.p.d_last) ∧
    (2 * max n s.a.nalloc < 2 ^ 64 →
      2 * max n s.a.nalloc * s.a.size < 2 ^ 64 →
      ∀ slot, (ngx_array_push_n ngx_palloc s n).1 = some slot →
        (ngx_array_push_n ngx_palloc s n).2.p.d_last
          ≤ (ngx_array_push_n ngx_palloc s n).2.p.d_end ∧
        (ngx_array_push_n ngx_palloc s n).2.a.elts
            + (ngx_array_push_n ngx_palloc s n).2.a.nalloc
              * (ngx_array_push_n ngx_palloc s n).2.a.size
          ≤ (ngx_array_push_n ngx_palloc s n).2.p.d_last) := by
  constructor
  · intro slot hok
    rcases push_cases ngx_palloc s with h | ⟨h1, h2⟩ | ⟨h1, h2, p1, h3⟩ |
        ⟨h1, h2, new, p1, h3⟩
    · rw [push_room ngx_palloc s h]
      exact ⟨hcur, hblk⟩
    · rw [push_grow ngx_palloc s h1 h2]
      obtain ⟨hend, hroom⟩ := h2
      refine ⟨hroom, ?_⟩
      show s.a.elts + (s.a.nalloc + 1) * s.a.size ≤ s.p.d_last + s.a.size
      rw [Nat.succ_mul]
      omega
    · rw [push_move_none ngx_palloc s p1 h1 h2 h3] at hok
      exact absurd hok (by simp)
    · rw [push_move_some ngx_palloc s new p1 h1 h2 h3]
      obtain ⟨hq, hp⟩ := halloc _ _ _ _ h3
      refine ⟨hp, ?_⟩
      show new + s.a.nalloc * 2 * s.a.size ≤ p1.d_last
      have e : s.a.nalloc * 2 * s.a.size = 2 * (s.a.size * s.a.nalloc) := by ring
      rw [e]
      exact hq
  · intro hfit2 hfit3 slot hok
    have hn : n ≤ max n s.a.nalloc := Nat.le_max_left _ _
    have hc : s.a.nalloc ≤ max n s.a.nalloc := Nat.le_max_right _ _
    have w2 : wrap64 (s.a.nalloc + n) = s.a.nalloc + n :=
      wrap64_of_lt _ (by omega)
    have hns : n * s.a.size ≤ 2 * max n s.a.nalloc * s.a.size :=
      Nat.mul_le_mul_right _ (by omega)
    have w3 : wrap64 (n * s.a.size) = n * s.a.size :=
      wrap64_of_lt _ (Nat.lt_of_le_of_lt hns hfit3)
    have w4 : wrap64 (2 * (if n ≥ s.a.nalloc then n else s.a.nalloc))
        = 2 * max n s.a.nalloc := by
      rw [ite_ge_eq_max]
      exact wrap64_of_lt _ hfit2
    rcases push_n_cases ngx_palloc s n with h | ⟨h1, h2⟩ | ⟨h1, h2, p1, h3⟩ |
        ⟨h1, h2, new, p1, h3⟩
    · rw [push_n_room ngx_palloc s n h]
      exact ⟨hcur, hblk⟩
    · rw [push_n_grow ngx_palloc s n h1 h2]
      obtain ⟨hend, hroom⟩ := h2
      refine ⟨hroom, ?_⟩
      show s.a.elts + wrap64 (s.a.nalloc + n) * s.a.size
        ≤ s.p.d_last + wrap64 (n * s.a.size)
      rw [w2, w3, Nat.add_mul]
      omega
    · rw [push_n_move_none ngx_palloc s n p1 h1 h2 h3] at hok
      exact absurd hok (by simp)
    · rw [push_n_move_some ngx_palloc s n new p1 h1 h2 h3]
      obtain ⟨hq, hp⟩ := halloc _ _ _ _ h3
      refine ⟨hp, ?_⟩
      show new + wrap64 (2 * (if n ≥ s.a.nalloc then n else s.a.nalloc)) * s.a.size
        ≤ p1.d_last
      rw [w4, wrap64_of_lt _ hfit3] at hq
      rw [w4]
      exact hq

/-- A run of the amended C20: a full array of two 4-byte elements at 100,
not last in a pool with cursor 200 and end 300, pushed once and pushed by
three. -/
theorem arena_bounds_preserved_witness :
    ((mkState 100 2 4 2 200 300).p.d_last ≤ (mkState 100 2 4 2 200 300).p.d_end ∧
      (mkState 100 2 4 2 200 300).a.elts
          + (mkState 100 2 4 2 200 300).a.nalloc * (mkState 100 2 4 2 200 300).a.size
        ≤ (mkState 100 2 4 2 200 300).p.d_last ∧
      2 * max 3 (mkState 100 2 4 2 200 300).a.nalloc < 2 ^ 64 ∧
      2 * max 3 (mkState 100 2 4 2 200 300).a.nalloc
        * (mkState 100 2 4 2 200 300).a.size < 2 ^ 64 ∧
      (ngx_array_push bump_palloc (mkState 100 2 4 2 200 300)).1 = some 208 ∧
      (ngx_array_push_n bump_palloc (mkState 100 2 4 2 200 300) 3).1 = some 208) ∧
    ((∀ slot, (ngx_array_push bump_palloc (mkState 100 2 4 2 200 300)).1
          = some slot →
        (ngx_array_push bump_palloc (mkState 100 2 4 2 200 300)).2.p.d_last
          ≤ (ngx_array_push bump_palloc (mkState 100 2 4 2 200 300)).2.p.d_end ∧
        (ngx_array_push bump_palloc (mkState 100 2 4 2 200 300)).2.a.elts
            + (ngx_array_push bump_palloc (mkState 100 2 4 2 200 300)).2.a.nalloc
              * (ngx_array_push bump_palloc (mkState 100 2 4 2 200 300)).2.a.size
          ≤ (ngx_array_push bump_palloc (mkState 100 2 4 2 200 300)).2.p.d_last) ∧
      (2 * max 3 (mkState 100 2 4 2 200 300).a.nalloc < 2 ^ 64 →
        2 * max 3 (mkState 100 2 4 2 200 300).a.nalloc
          * (mkState 100 2 4 2 200 300).a.size < 2 ^ 64 →
        ∀ slot, (ngx_array_push_n bump_palloc (mkState 100 2 4 2 200 300) 3).1
            = some slot →
          (ngx_array_push_n bump_palloc (mkState 100 2 4 2 200 300) 3).2.p.d_last
            ≤ (ngx_array_push_n bump_palloc (mkState 100 2 4 2 200 300) 3).2.p.d_end ∧
          (ngx_array_push_n bump_palloc (mkState 100 2 4 2 200 300) 3).2.a.elts
              + (ngx_array_push_n bump_palloc (mkState 100 2 4 2 200 300) 3).2.a.nalloc
                * (ngx_array_push_n bump_palloc (mkState 100 2 4 2 200 300) 3).2.a.size
            ≤ (ngx_array_push_n bump_palloc (mkState 100 2 4 2 200 300) 3).2.p.d_last)) :=
  ⟨⟨by decide, by decide, by decide, by decide, by decide, by decide⟩,
    arena_bounds_preserved bump_palloc (mkState 100 2 4 2 200 300) 3
      bump_palloc_bounds (by decide) (by decide)⟩

end NgxArray
